import Mathlib

/-!
Shallow embedding of the Warbler micro-blogging application (`src/app.py`,
`src/forms.py`, and the `models.py` layer it calls) and proofs about its
social-graph, engagement, feed and identity operations.

The relational store is embedded as explicit lists: `users`, `messages`,
`follows` (pairs `(follower id, followed id)`) and `likes` (pairs
`(user id, message id)`).  Each Flask route handler becomes a pure function
from a database state and a session (the optional logged-in user id) to a
`Result` — encoding which response branch the handler takes — together with
the updated database state.  Unhandled Python exceptions (an `AttributeError`
on `None`, or `ValueError` from `list.remove`) are encoded by the
`Result.pythonError` branch, with the state unchanged.
-/

namespace Warbler

/-- A row of the `users` table (`models.py` / `User`). -/
structure UserRec where
  id : Nat
  username : String
  email : String
  /-- The stored credential: a bcrypt hash, never the raw password. -/
  password : String
  image_url : String
  header_image_url : String
  location : String
  bio : String
deriving Repr, DecidableEq

/-- A row of the `messages` table (`models.py` / `Message`).  Timestamps are
embedded as naturals; larger means more recent. -/
structure Msg where
  id : Nat
  text : String
  timestamp : Nat
  user_id : Nat
deriving Repr, DecidableEq

/-- The database state: the four tables of the schema.  `follows` holds
`(user_following_id, user_being_followed_id)` pairs; `likes` holds
`(user_id, message_id)` pairs. -/
structure DB where
  users : List UserRec
  messages : List Msg
  follows : List (Nat × Nat)
  likes : List (Nat × Nat)
deriving Repr, DecidableEq

/-- The observable outcome of one request: which branch of the handler
produced the response. -/
inductive Result where
  /-- The action succeeded and the handler redirected. -/
  | ok
  /-- Flash of "Access unauthorized." followed by `redirect("/")`. -/
  | accessUnauthorized
  /-- Lookup via `get_or_404` failed: HTTP 404. -/
  | notFound
  /-- Abort with `abort(403)`: HTTP 403 Forbidden. -/
  | forbidden
  /-- Flash of "You can't follow yourself!" followed by `redirect("/")`. -/
  | selfFollowRejected
  /-- An unhandled Python exception escaped the handler (HTTP 500). -/
  | pythonError
  /-- An `IntegrityError` caught at signup: flash "Username already taken". -/
  | usernameTaken
  /-- Flash of "Wrong password, please try again." on profile edit. -/
  | wrongPassword
deriving Repr, DecidableEq

/-- Embedding of `add_user_to_g` (`app.py` lines 45-56): resolve the session's stored user
id to a `User` row, or `none` when logged out or the id is stale. -/
def gUser (s : DB) (sess : Option Nat) : Option UserRec :=
  match sess with
  | none => none
  | some uid => s.users.find? (fun u => u.id == uid)

/-- Route `POST /users/follow/<follow_id>` (`app.py` `add_follow`, lines 219-235).
The handler dereferences `g.user.id` before the `if not g.user` guard, so an
anonymous request raises `AttributeError` (`pythonError`).  A self-follow is
rejected with a flash before any edge is written.  The `follows` table
(schema in the missing `models.py`; spec §6) carries a uniqueness constraint
on the `(follower, followed)` pair, so when the edge already exists the
`db.session.commit()` raises an unhandled `IntegrityError` (HTTP 500,
`pythonError`) and the transaction is not persisted. -/
def add_follow (s : DB) (sess : Option Nat) (follow_id : Nat) : Result × DB :=
  match gUser s sess with
  | none => (.pythonError, s)
  | some a =>
      if a.id == follow_id then (.selfFollowRejected, s)
      else
        match s.users.find? (fun u => u.id == follow_id) with
        | none => (.notFound, s)
        | some _ =>
            if (a.id, follow_id) ∈ s.follows then (.pythonError, s)
            else (.ok, { s with follows := s.follows ++ [(a.id, follow_id)] })

/-- Embedding of Python's `list.remove(x)` on the association list: drop the first
occurrence of the edge, or `none` for the `ValueError` raised when the edge
is absent. -/
def removeFirstEdge (e : Nat × Nat) : List (Nat × Nat) → Option (List (Nat × Nat))
  | [] => none
  | f :: fs =>
      if f = e then some fs
      else (removeFirstEdge e fs).map (fun l => f :: l)

/-- Route `POST /users/stop-following/<follow_id>` (`app.py` `stop_following`,
lines 238-250).  `User.query.get` may return `None`, and
`g.user.following.remove(followed_user)` raises `ValueError` when the target
is not in the following list — both are the `pythonError` branch. -/
def stop_following (s : DB) (sess : Option Nat) (follow_id : Nat) : Result × DB :=
  match gUser s sess with
  | none => (.accessUnauthorized, s)
  | some a =>
      match s.users.find? (fun u => u.id == follow_id) with
      | none => (.pythonError, s)
      | some _ =>
          match removeFirstEdge (a.id, follow_id) s.follows with
          | none => (.pythonError, s)
          | some fs => (.ok, { s with follows := fs })

/-- Route `POST /messages/<message_id>/like` (`app.py` `add_like`, lines 268-293):
the like/unlike toggle.  Liking one's own message aborts with 403.  The
unlike branch re-assigns `g.user.likes` to a list comprehension filtering the
message out; the like branch appends it. -/
def add_like (s : DB) (sess : Option Nat) (message_id : Nat) : Result × DB :=
  match gUser s sess with
  | none => (.accessUnauthorized, s)
  | some u =>
      match s.messages.find? (fun m => m.id == message_id) with
      | none => (.notFound, s)
      | some liked_message =>
          if liked_message.user_id == u.id then (.forbidden, s)
          else
            if (u.id, message_id) ∈ s.likes then
              (.ok, { s with
                        likes := s.likes.filter (fun l => l != (u.id, message_id)) })
            else
              (.ok, { s with likes := s.likes ++ [(u.id, message_id)] })

/-- Route `POST /messages/<message_id>/delete` (`app.py` `messages_destroy`,
lines 382-398): only the owner may delete; any other requester gets the
"Access unauthorized" flash and the row survives. -/
def messages_destroy (s : DB) (sess : Option Nat) (message_id : Nat) : Result × DB :=
  match gUser s sess with
  | none => (.accessUnauthorized, s)
  | some r =>
      match s.messages.find? (fun m => m.id == message_id) with
      | none => (.notFound, s)
      | some msg =>
          if msg.user_id ≠ r.id then (.accessUnauthorized, s)
          else (.ok, { s with messages := s.messages.filter (fun m => m.id ≠ message_id) })

/-- Embedding of the `ORDER BY timestamp DESC` comparison: `a` sorts no later than `b`
when `a` is at least as recent. -/
def newerFirst (a b : Msg) : Prop := b.timestamp ≤ a.timestamp

instance : DecidableRel newerFirst := fun a b => Nat.decLe b.timestamp a.timestamp

instance : IsTotal Msg newerFirst := ⟨fun a b => Nat.le_total b.timestamp a.timestamp⟩

instance : IsTrans Msg newerFirst := ⟨fun _ _ _ hab hbc => Nat.le_trans hbc hab⟩

/-- Route `GET /` (`app.py` `homepage`, lines 405-430): for a logged-in user,
the 100 most recent messages whose author is the user or someone the user
follows, newest first; `none` for an anonymous visitor. -/
def homepage (s : DB) (sess : Option Nat) : Option (List Msg) :=
  match gUser s sess with
  | none => none
  | some u =>
      let following_ids := (s.follows.filter (fun e => e.1 == u.id)).map (fun e => e.2) ++ [u.id]
      some (((s.messages.filter (fun m => m.user_id ∈ following_ids)).insertionSort
              newerFirst).take 100)

/-- Modelled from the spec: `models.py` is not under `src/`, so the bcrypt
hashing it performs is missing.  The spec (§4.1) requires "a slow, salted
one-way hashing algorithm" whose stored output "never holds raw input — only
a one-way hash"; we model it as a deterministic tagged encoding, which keeps
verification exact and the output distinct from every raw input. -/
def bcryptHash (raw : String) : String := "$2b$12$" ++ raw

/-- Modelled from the spec: `models.py`'s `User.authenticate` is not under
`src/`.  Spec §4.1: "looks up User by exact username; if found, verifies
`rawPassword` against stored hash ...; returns the User on match, otherwise
returns an explicit no-match result — never throws for wrong credentials". -/
def authenticate (s : DB) (username raw : String) : Option UserRec :=
  match s.users.find? (fun u => u.username == username) with
  | none => none
  | some u => if u.password == bcryptHash raw then some u else none

/-- Modelled from the spec: the default placeholder image URL declared on the
`User` schema in the missing `models.py` (`User.image_url.default.arg`). -/
def defaultImageUrl : String := "/static/images/default-pic.png"

/-- Modelled from the spec: the default header placeholder of `models.py`. -/
def defaultHeaderUrl : String := "/static/images/warbler-hero.jpg"

/-- The error signals of `User.signup` (spec §4.1 and §7): `invalidInput` is
the `ValueError` raised before hashing for a too-short password, and
`duplicateCredential` the database uniqueness violation on username/email. -/
inductive SignupError where
  | invalidInput
  | duplicateCredential
deriving Repr, DecidableEq

/-- Modelled from the spec: `models.py`'s `User.signup` together with the
`db.session.commit()` uniqueness check is not under `src/`.  Spec §4.1:
hash the password (after rejecting passwords shorter than 6 characters,
before hashing), default the image URL when unset, and fail with
`DuplicateCredential` when the username or email already exists.  The fresh
primary key is passed in as `newId`. -/
def signup (s : DB) (username email pw : String) (image_url : Option String)
    (newId : Nat) : Except SignupError (UserRec × DB) :=
  if pw.length < 6 then .error .invalidInput
  else if s.users.any (fun u => u.username == username || u.email == email) then
    .error .duplicateCredential
  else
    let u : UserRec :=
      { id := newId, username := username, email := email,
        password := bcryptHash pw,
        image_url := image_url.getD defaultImageUrl,
        header_image_url := defaultHeaderUrl,
        location := "", bio := "" }
    .ok (u, { s with users := s.users ++ [u] })

/-- Route `POST /signup` (`app.py` `signup`, lines 72-109), for an anonymous
session and a form that passed validation: attempt `User.signup` and commit;
an `IntegrityError` is caught and translated into the "Username already
taken" flash with the form re-presented, leaving the store unchanged. -/
def signup_route (s : DB) (username email pw : String) (image_url : Option String)
    (newId : Nat) : Result × DB :=
  match signup s username email pw image_url newId with
  | .error .duplicateCredential => (.usernameTaken, s)
  | .error .invalidInput => (.pythonError, s)
  | .ok (_, s') => (.ok, s')

/-- Modelled from the spec: `models.py`'s `User.is_following` is not under
`src/`.  Spec §4.2: `isFollowing(a, b)` is a pure read query over the edge
set. -/
def is_following (s : DB) (a b : Nat) : Bool :=
  s.follows.any (fun e => e.1 == a && e.2 == b)

/-- The validated fields of `EditUserForm` (`forms.py`).  The optional URL
fields are plain strings where `""` is Python-falsy and triggers the schema
default. -/
structure EditForm where
  username : String
  email : String
  image_url : String
  header_image_url : String
  location : String
  bio : String
  password : String
deriving Repr, DecidableEq

/-- Embedding of Python's `a or b` on strings: `b` when `a` is empty. -/
def strOr (a b : String) : String := if a == "" then b else a

/-- Route `POST /users/profile` (`app.py` `profile`, lines 297-326): after
re-authenticating with the current password, update every profile field of
the logged-in user — the password field itself is never written. -/
def profile (s : DB) (sess : Option Nat) (form : EditForm) : Result × DB :=
  match gUser s sess with
  | none => (.accessUnauthorized, s)
  | some user =>
      match authenticate s user.username form.password with
      | none => (.wrongPassword, s)
      | some _ =>
          let u' : UserRec :=
            { user with
                username := form.username, email := form.email,
                image_url := strOr form.image_url defaultImageUrl,
                header_image_url := strOr form.header_image_url defaultHeaderUrl,
                location := form.location, bio := form.bio }
          (.ok, { s with users := s.users.map (fun x => if x.id == user.id then u' else x) })

/-- Route `POST /users/delete` (`app.py` `delete_user`, lines 330-345): remove the
logged-in user's row. -/
def delete_user (s : DB) (sess : Option Nat) : Result × DB :=
  match gUser s sess with
  | none => (.accessUnauthorized, s)
  | some user =>
      (.ok, { s with users := s.users.filter (fun x => x.id ≠ user.id) })

/-! ## Concrete sample data, used by witnesses and counterexamples -/

/-- Sample user `alice` (id 1). -/
def exUser1 : UserRec :=
  { id := 1, username := "alice", email := "alice@x.com",
    password := bcryptHash "secret1", image_url := defaultImageUrl,
    header_image_url := defaultHeaderUrl, location := "", bio := "" }

/-- Sample user `bob` (id 2). -/
def exUser2 : UserRec :=
  { id := 2, username := "bob", email := "bob@x.com",
    password := bcryptHash "secret2", image_url := defaultImageUrl,
    header_image_url := defaultHeaderUrl, location := "", bio := "" }

/-- A message owned by `alice`. -/
def exMsg1 : Msg := { id := 10, text := "hello", timestamp := 5, user_id := 1 }

/-- A more recent message owned by `bob`. -/
def exMsg2 : Msg := { id := 11, text := "warble", timestamp := 7, user_id := 2 }

/-- The most recent message, owned by a user nobody follows. -/
def exMsg3 : Msg := { id := 12, text := "noise", timestamp := 9, user_id := 99 }

/-- Sample database: alice follows bob, no likes yet. -/
def exDB : DB :=
  { users := [exUser1, exUser2], messages := [exMsg1, exMsg2, exMsg3],
    follows := [(1, 2)], likes := [] }

/-! ## Claim theorems -/

/-- C2: for every logged-in user and every existing message owned by that
same user, the like toggle aborts with 403 Forbidden and leaves the whole
database state — in particular the Likes edge set — unchanged. -/
theorem add_like_self_forbidden (s : DB) (sess : Option Nat) (u : UserRec)
    (mid : Nat) (m : Msg)
    (hu : gUser s sess = some u)
    (hm : s.messages.find? (fun x => x.id == mid) = some m)
    (hown : m.user_id = u.id) :
    add_like s sess mid = (Result.forbidden, s) := by
  simp [add_like, hu, hm, hown]

/-- Witness for C2: alice (id 1) toggling a like on her own message 10
gets the 403 on the concrete sample database. -/
theorem add_like_self_forbidden_witness :
    add_like exDB (some 1) 10 = (Result.forbidden, exDB) :=
  add_like_self_forbidden exDB (some 1) exUser1 10 exMsg1 (by decide) (by decide) rfl

/-- C4: for every logged-in requester and every existing message, deletion
succeeds exactly when the requester's id equals the message owner's id; when
the ids differ the handler answers with the "Access unauthorized" branch
(the spec's `ForbiddenError`), the state is unchanged, and the message still
exists; on success every message with the deleted id is gone. -/
theorem messages_destroy_owner_only (s : DB) (sess : Option Nat) (r : UserRec)
    (mid : Nat) (m : Msg)
    (hu : gUser s sess = some r)
    (hm : s.messages.find? (fun x => x.id == mid) = some m) :
    ((messages_destroy s sess mid).1 = Result.ok ↔ m.user_id = r.id) ∧
    (m.user_id ≠ r.id →
      messages_destroy s sess mid = (Result.accessUnauthorized, s) ∧ m ∈ s.messages) ∧
    (m.user_id = r.id →
      ∀ x ∈ (messages_destroy s sess mid).2.messages, x.id ≠ mid) := by
  have hmem : m ∈ s.messages := List.mem_of_find?_eq_some hm
  by_cases h : m.user_id = r.id
  · refine ⟨?_, fun hc => absurd h hc, fun _ x hx => ?_⟩
    · simp [messages_destroy, hu, hm, h]
    · simp only [messages_destroy, hu, hm, h] at hx
      simp at hx
      exact hx.2
  · refine ⟨?_, fun _ => ⟨?_, hmem⟩, fun hc => absurd hc h⟩
    · simp [messages_destroy, hu, hm, h]
    · simp [messages_destroy, hu, hm, h]

/-- Witness for C4: bob (id 2) cannot delete alice's message 10; the message
survives on the concrete sample database. -/
theorem messages_destroy_owner_only_witness :
    messages_destroy exDB (some 2) 10 = (Result.accessUnauthorized, exDB) ∧
    exMsg1 ∈ exDB.messages :=
  (messages_destroy_owner_only exDB (some 2) exUser2 10 exMsg1
    (by decide) (by decide)).2.1 (by decide)

/-- Counterexample to C7 as stated: on the sample database alice (id 1)
already follows bob (id 2), and a second `follow(1, 2)` between these
distinct existing users does not insert an edge — the uniqueness constraint
raises an unhandled `IntegrityError` (HTTP 500) and the state is
unchanged. -/
theorem add_follow_duplicate_errors :
    add_follow exDB (some 1) 2 = (Result.pythonError, exDB) ∧
    (add_follow exDB (some 1) 2).1 ≠ Result.ok := by decide

/-- C7 (amended): for every logged-in user `a`, following `a` itself is
rejected with the self-follow flash (the spec's `SelfReferenceError`) and
the state — in particular the Follows edge set — is unchanged; for every
other existing user id `bid`, when no `(a.id, bid)` edge exists yet the
follow succeeds, appends exactly that edge, and makes `is_following` true;
when the edge already exists the uniqueness violation surfaces as an
unhandled `IntegrityError` (HTTP 500) with the state unchanged. -/
theorem add_follow_self_rejected (s : DB) (sess : Option Nat) (a : UserRec)
    (hu : gUser s sess = some a) :
    add_follow s sess a.id = (Result.selfFollowRejected, s) ∧
    (∀ bid : Nat, bid ≠ a.id → (∃ b ∈ s.users, b.id = bid) →
      ((a.id, bid) ∉ s.follows →
        add_follow s sess bid =
          (Result.ok, { s with follows := s.follows ++ [(a.id, bid)] }) ∧
        is_following (add_follow s sess bid).2 a.id bid = true) ∧
      ((a.id, bid) ∈ s.follows →
        add_follow s sess bid = (Result.pythonError, s))) := by
  refine ⟨by simp [add_follow, hu], fun bid hne hb => ?_⟩
  have hfind : (s.users.find? (fun u => u.id == bid)).isSome := by
    rw [List.find?_isSome]
    obtain ⟨b, hbmem, hbid⟩ := hb
    exact ⟨b, hbmem, by simp [hbid]⟩
  obtain ⟨w, hw⟩ := Option.isSome_iff_exists.mp hfind
  have hne' : (a.id == bid) = false := by
    simp only [beq_eq_false_iff_ne, ne_eq]
    exact fun h => hne h.symm
  refine ⟨fun habs => ⟨?_, ?_⟩, fun hdup => ?_⟩
  · simp [add_follow, hu, hw, hne', habs]
  · simp [add_follow, hu, hw, hne', habs, is_following]
  · simp [add_follow, hu, hw, hne', hdup]

/-- Witness for C7: on the sample database, alice following herself is
rejected with the state unchanged; bob freshly following alice makes
`is_following` true; and alice repeating her existing follow of bob hits
the uniqueness error with the state unchanged. -/
theorem add_follow_self_rejected_witness :
    add_follow exDB (some 1) 1 = (Result.selfFollowRejected, exDB) ∧
    is_following (add_follow exDB (some 2) 1).2 2 1 = true ∧
    add_follow exDB (some 1) 2 = (Result.pythonError, exDB) := by
  have h1 := add_follow_self_rejected exDB (some 1) exUser1 (by decide)
  have h2 := add_follow_self_rejected exDB (some 2) exUser2 (by decide)
  exact ⟨h1.1,
    ((h2.2 1 (by decide) ⟨exUser1, by decide, by decide⟩).1 (by decide)).2,
    (h1.2 2 (by decide) ⟨exUser2, by decide, by decide⟩).2 (by decide)⟩

/-- C6: the modelled `authenticate` is a total function into `Option` (the explicit
"no match" result is `none`; nothing is thrown): it returns `some u` exactly
when the username lookup finds `u` and the supplied raw password verifies
against the stored hash, and it returns `none` whenever the username is
unknown — hence also whenever the password is wrong. -/
theorem authenticate_no_match_total (s : DB) (un raw : String) :
    (∀ u : UserRec,
      authenticate s un raw = some u ↔
        s.users.find? (fun x => x.username == un) = some u ∧
          u.password = bcryptHash raw) ∧
    (s.users.find? (fun x => x.username == un) = none →
      authenticate s un raw = none) := by
  refine ⟨fun u => ?_, fun hf => by simp [authenticate, hf]⟩
  cases hf : s.users.find? (fun x => x.username == un) with
  | none => simp [authenticate, hf]
  | some v =>
      by_cases hp : v.password = bcryptHash raw
      · simp only [authenticate, hf, hp, beq_self_eq_true, if_true,
          Option.some.injEq]
        constructor
        · rintro rfl
          exact ⟨rfl, hp⟩
        · rintro ⟨hv, _⟩
          exact hv
      · simp only [authenticate, hf]
        rw [if_neg (by simpa using hp)]
        simp only [Option.some.injEq, false_iff, not_and]
        constructor
        · intro h
          exact absurd h (by simp)
        · rintro ⟨hv, hpw⟩
          exact absurd (hv ▸ hpw) hp

/-- Witness for C6: on the sample database, alice with her correct password
authenticates to her row; an unknown username yields the explicit `none`. -/
theorem authenticate_no_match_total_witness :
    authenticate exDB "alice" "secret1" = some exUser1 ∧
    authenticate exDB "carol" "whatever" = none :=
  ⟨((authenticate_no_match_total exDB "alice" "secret1").1 exUser1).mpr
      ⟨by decide, rfl⟩,
    (authenticate_no_match_total exDB "carol" "whatever").2 (by decide)⟩

/-- C8: whenever some stored user already holds the requested username or
the requested email, a fresh signup attempt (with a password that passed the
form's minimum-length validation) fails: the modelled `User.signup` raises
the uniqueness violation, the route translates it into the "Username already
taken" flash, and the user store is returned unchanged — no new user row is
created. -/
theorem signup_duplicate_rejected (s : DB) (un em pw : String)
    (img : Option String) (newId : Nat) (u : UserRec)
    (hmem : u ∈ s.users) (hdup : u.username = un ∨ u.email = em)
    (hpw : 6 ≤ pw.length) :
    signup s un em pw img newId = .error .duplicateCredential ∧
    signup_route s un em pw img newId = (Result.usernameTaken, s) := by
  have hany : s.users.any (fun x => x.username == un || x.email == em) = true := by
    rw [List.any_eq_true]
    refine ⟨u, hmem, ?_⟩
    rcases hdup with h | h <;> simp [h]
  have hlen : ¬ pw.length < 6 := by omega
  have hsig : signup s un em pw img newId = .error .duplicateCredential := by
    simp [signup, hlen, hany]
  exact ⟨hsig, by simp [signup_route, hsig]⟩

/-- Witness for C8: signing up with the already-taken username "alice" on
the sample database is rejected and the database is unchanged. -/
theorem signup_duplicate_rejected_witness :
    signup_route exDB "alice" "new@x.com" "hunter22" none 5 =
      (Result.usernameTaken, exDB) :=
  (signup_duplicate_rejected exDB "alice" "new@x.com" "hunter22" none 5 exUser1
    (by decide) (Or.inl rfl) (by decide)).2

/-- The stored-credential invariant of C9: every user row's password field
holds a bcrypt hash of some raw input (and therefore never a raw password
itself). -/
def pwStoreHashed (users : List UserRec) : Prop :=
  ∀ x ∈ users, ∃ raw, x.password = bcryptHash raw

/-- C9: a successful signup returns a user whose stored password field is
the one-way hash of the raw input and never the raw input itself, and the
password-is-a-hash invariant over the user store is preserved by every
operation that writes that store: `signup`, the profile edit (which never
writes the password field), and account deletion. -/
theorem signup_password_never_raw (s : DB) (un em pw : String)
    (img : Option String) (newId : Nat) (u : UserRec) (s' : DB)
    (h : signup s un em pw img newId = .ok (u, s')) :
    u.password = bcryptHash pw ∧ u.password ≠ pw ∧
    (pwStoreHashed s.users → pwStoreHashed s'.users) ∧
    (∀ sess form, pwStoreHashed s.users →
      pwStoreHashed ((profile s sess form).2.users)) ∧
    (∀ sess, pwStoreHashed s.users →
      pwStoreHashed ((delete_user s sess).2.users)) := by
  have hash_ne : ∀ r : String, bcryptHash r ≠ r := by
    intro r heq
    have hlen := congrArg String.length heq
    rw [bcryptHash, String.length_append] at hlen
    have h7 : ("$2b$12$" : String).length = 7 := rfl
    omega
  unfold signup at h
  split at h
  · exact absurd h (by simp)
  · split at h
    · exact absurd h (by simp)
    · simp only [Except.ok.injEq, Prod.mk.injEq] at h
      obtain ⟨hu, hs⟩ := h
      refine ⟨by rw [← hu], by rw [← hu]; exact hash_ne pw, ?_, ?_, ?_⟩
      · intro hinv x hx
        rw [← hs] at hx
        simp only [List.mem_append, List.mem_singleton] at hx
        rcases hx with hx | hx
        · exact hinv x hx
        · exact ⟨pw, by rw [hx]⟩
      · intro sess form hinv x hx
        cases hg : gUser s sess with
        | none =>
            simp only [profile, hg] at hx
            exact hinv x hx
        | some user =>
            cases ha : authenticate s user.username form.password with
            | none =>
                simp only [profile, hg, ha] at hx
                exact hinv x hx
            | some v =>
                simp only [profile, hg, ha, List.mem_map] at hx
                obtain ⟨y, hy, hxy⟩ := hx
                have huser : user ∈ s.users := by
                  cases sess with
                  | none => simp [gUser] at hg
                  | some uid => exact List.mem_of_find?_eq_some hg
                by_cases hid : (y.id == user.id) = true
                · rw [if_pos hid] at hxy
                  obtain ⟨r, hr⟩ := hinv user huser
                  exact ⟨r, by rw [← hxy]; exact hr⟩
                · rw [if_neg hid] at hxy
                  obtain ⟨r, hr⟩ := hinv y hy
                  exact ⟨r, by rw [← hxy]; exact hr⟩
      · intro sess hinv x hx
        cases hg : gUser s sess with
        | none =>
            simp only [delete_user, hg] at hx
            exact hinv x hx
        | some user =>
            simp only [delete_user, hg] at hx
            exact hinv x (List.mem_of_mem_filter hx)

/-- The user row produced by the witness signup below. -/
def exNewUser : UserRec :=
  { id := 3, username := "carol", email := "carol@x.com",
    password := bcryptHash "hunter22", image_url := defaultImageUrl,
    header_image_url := defaultHeaderUrl, location := "", bio := "" }

/-- The database state after carol's witness signup. -/
def exDB9 : DB :=
  { users := [exUser1, exUser2, exNewUser],
    messages := [exMsg1, exMsg2, exMsg3], follows := [(1, 2)], likes := [] }

/-- Witness for C9: the concrete signup of carol stores a hash that differs
from the raw password "hunter22". -/
theorem signup_password_never_raw_witness :
    exNewUser.password = bcryptHash "hunter22" ∧
    exNewUser.password ≠ "hunter22" := by
  have h : signup exDB "carol" "carol@x.com" "hunter22" none 3 =
      .ok (exNewUser, exDB9) := by rfl
  have hthm := signup_password_never_raw exDB "carol" "carol@x.com" "hunter22"
    none 3 exNewUser exDB9 h
  exact ⟨hthm.1, hthm.2.1⟩

/-- Changing only the `likes` column leaves the resolved session user
unchanged. -/
theorem gUser_set_likes (s : DB) (sess : Option Nat) (l : List (Nat × Nat)) :
    gUser { s with likes := l } sess = gUser s sess := by
  cases sess <;> rfl

/-- Variant of `perm_cons_erase` for an arbitrary lawful `BEq` instance. -/
theorem perm_cons_erase_beq {α : Type} [BEq α] [LawfulBEq α] (a : α) :
    ∀ l : List α, a ∈ l → l.Perm (a :: l.erase a)
  | b :: t, h => by
      by_cases hb : (b == a) = true
      · have hba : b = a := eq_of_beq hb
        subst hba
        rw [List.erase_cons_head]
      · rw [List.erase_cons_tail (by simpa using hb)]
        have ht : a ∈ t := by
          rcases List.mem_cons.mp h with rfl | ht
          · exact absurd (by simp) hb
          · exact ht
        exact ((perm_cons_erase_beq a t ht).cons b).trans (List.Perm.swap a b _)

/-- C1: for every logged-in user and existing message the user does not own,
the like toggle succeeds, and under the schema's uniqueness invariant on the
Likes table (`Nodup`) each call changes the edge set by exactly one edge:
when the edge is absent the first call appends exactly `(u.id, mid)` and the
second call restores the original list exactly; when the edge is present the
first call removes exactly that edge (`erase`) and the second call restores
the original edge set up to permutation — so a pair of calls always
round-trips the like set. -/
theorem add_like_toggle_roundtrip (s : DB) (sess : Option Nat) (u : UserRec)
    (mid : Nat) (m : Msg)
    (hu : gUser s sess = some u)
    (hm : s.messages.find? (fun x => x.id == mid) = some m)
    (hown : m.user_id ≠ u.id)
    (hnd : s.likes.Nodup) :
    (add_like s sess mid).1 = Result.ok ∧
    (add_like (add_like s sess mid).2 sess mid).1 = Result.ok ∧
    ((u.id, mid) ∉ s.likes →
      (add_like s sess mid).2.likes = s.likes ++ [(u.id, mid)] ∧
      (add_like (add_like s sess mid).2 sess mid).2.likes = s.likes) ∧
    ((u.id, mid) ∈ s.likes →
      (add_like s sess mid).2.likes = s.likes.erase (u.id, mid) ∧
      ((add_like (add_like s sess mid).2 sess mid).2.likes).Perm s.likes) := by
  have hbeq : (m.user_id == u.id) = false := by simpa using hown
  by_cases hmem : (u.id, mid) ∈ s.likes
  · have h1 : add_like s sess mid =
        (Result.ok, { s with likes := s.likes.filter (fun l => l != (u.id, mid)) }) := by
      simp [add_like, hu, hm, hbeq, hmem]
    have herase : s.likes.filter (fun l => l != (u.id, mid)) =
        s.likes.erase (u.id, mid) :=
      (hnd.erase_eq_filter (u.id, mid)).symm
    have hnotmem : (u.id, mid) ∉ s.likes.filter (fun l => l != (u.id, mid)) := by
      simp [List.mem_filter]
    have h2 : add_like (add_like s sess mid).2 sess mid =
        (Result.ok,
          { s with likes := s.likes.filter (fun l => l != (u.id, mid)) ++ [(u.id, mid)] }) := by
      rw [h1]
      simp [add_like, gUser_set_likes, hu, hm, hbeq, hnotmem]
    refine ⟨by rw [h1], by rw [h2], fun habs => absurd hmem habs, fun _ => ⟨?_, ?_⟩⟩
    · rw [h1]
      exact herase
    · rw [h2]
      show (s.likes.filter (fun l => l != (u.id, mid)) ++ [(u.id, mid)]).Perm s.likes
      rw [herase]
      exact (List.perm_append_singleton _ _).trans
        (perm_cons_erase_beq (u.id, mid) s.likes hmem).symm
  · have h1 : add_like s sess mid =
        (Result.ok, { s with likes := s.likes ++ [(u.id, mid)] }) := by
      simp [add_like, hu, hm, hbeq, hmem]
    have hmem1 : (u.id, mid) ∈ s.likes ++ [(u.id, mid)] := by simp
    have h2 : add_like (add_like s sess mid).2 sess mid =
        (Result.ok,
          { s with likes := (s.likes ++ [(u.id, mid)]).filter (fun l => l != (u.id, mid)) }) := by
      rw [h1]
      simp [add_like, gUser_set_likes, hu, hm, hbeq, hmem1]
    have hfilter : (s.likes ++ [(u.id, mid)]).filter (fun l => l != (u.id, mid)) =
        s.likes := by
      rw [List.filter_append]
      have hself : s.likes.filter (fun l => l != (u.id, mid)) = s.likes :=
        List.filter_eq_self.mpr (fun a ha => by
          simp only [bne_iff_ne, ne_eq]
          rintro rfl
          exact hmem ha)
      simp [hself]
    refine ⟨by rw [h1], by rw [h2], fun _ => ⟨by rw [h1], ?_⟩, fun habs => absurd habs hmem⟩
    rw [h2]
    exact hfilter

/-- Witness for C1: on the sample database (no likes yet), alice toggling a
like on bob's message 11 twice returns the empty like set exactly. -/
theorem add_like_toggle_roundtrip_witness :
    (add_like exDB (some 1) 11).1 = Result.ok ∧
    (add_like (add_like exDB (some 1) 11).2 (some 1) 11).2.likes = exDB.likes := by
  have h := add_like_toggle_roundtrip exDB (some 1) exUser1 11 exMsg2
    (by decide) (by decide) (by decide) (by decide)
  exact ⟨h.1, (h.2.2.1 (by decide)).2⟩

/-- Lemma: `removeFirstEdge` fails (Python `ValueError`) exactly when the edge is
not in the list. -/
theorem removeFirstEdge_eq_none_iff (e : Nat × Nat) :
    ∀ l : List (Nat × Nat), removeFirstEdge e l = none ↔ e ∉ l
  | [] => by simp [removeFirstEdge]
  | f :: fs => by
      by_cases hf : f = e
      · simp [removeFirstEdge, hf]
      · simp only [removeFirstEdge, if_neg hf, Option.map_eq_none',
          removeFirstEdge_eq_none_iff e fs, List.mem_cons]
        constructor
        · intro h hc
          rcases hc with hc | hc
          · exact hf hc.symm
          · exact h hc
        · intro h hc
          exact h (Or.inr hc)

/-- Removing the first occurrence decrements the edge's multiplicity by
exactly one. -/
theorem removeFirstEdge_count (e : Nat × Nat) :
    ∀ {l fs : List (Nat × Nat)}, removeFirstEdge e l = some fs →
      fs.count e + 1 = l.count e
  | [], _, h => by simp [removeFirstEdge] at h
  | f :: l, fs, h => by
      by_cases hf : f = e
      · rw [removeFirstEdge, if_pos hf] at h
        rcases Option.some.inj h with rfl
        rw [hf, List.count_cons_self]
      · rw [removeFirstEdge, if_neg hf] at h
        cases hg : removeFirstEdge e l with
        | none => rw [hg] at h; simp at h
        | some gs =>
            rw [hg] at h
            rcases Option.some.inj h.symm with rfl
            rw [List.count_cons_of_ne (fun hc => hf hc.symm),
              List.count_cons_of_ne (fun hc => hf hc.symm)]
            exact removeFirstEdge_count e hg

/-- Counterexample to C3 as stated: on a two-user database with no Follows
edge at all, unfollowing is not a silent no-op — the handler hits the
`ValueError` from `list.remove` (an unhandled exception, HTTP 500). -/
theorem stop_following_missing_edge_errors :
    (stop_following exDB (some 2) 1).1 = Result.pythonError ∧
    (stop_following exDB (some 2) 1).1 ≠ Result.ok := by decide

/-- C3 (amended): for a logged-in user `a` and an existing user id `bid`,
unfollow deletes the first matching Follows edge when one is present
(multiplicity drops by exactly one); but when no `(a.id, bid)` edge exists
the call raises an unhandled `ValueError` (`pythonError`, HTTP 500) with the
state unchanged — in particular a second unfollow right after a successful
one (starting from a single edge) errors rather than being a no-op. -/
theorem stop_following_spec (s : DB) (sess : Option Nat) (a : UserRec) (bid : Nat)
    (hu : gUser s sess = some a)
    (hb : (s.users.find? (fun x => x.id == bid)).isSome = true) :
    ((a.id, bid) ∉ s.follows → stop_following s sess bid = (Result.pythonError, s)) ∧
    (∀ fs, removeFirstEdge (a.id, bid) s.follows = some fs →
      stop_following s sess bid = (Result.ok, { s with follows := fs }) ∧
      fs.count (a.id, bid) + 1 = s.follows.count (a.id, bid) ∧
      (s.follows.count (a.id, bid) = 1 →
        stop_following { s with follows := fs } sess bid =
          (Result.pythonError, { s with follows := fs }))) := by
  obtain ⟨w, hw⟩ := Option.isSome_iff_exists.mp hb
  constructor
  · intro habs
    have hnone : removeFirstEdge (a.id, bid) s.follows = none :=
      (removeFirstEdge_eq_none_iff _ _).mpr habs
    simp [stop_following, hu, hw, hnone]
  · intro fs hfs
    have hcount := removeFirstEdge_count (a.id, bid) hfs
    refine ⟨by simp [stop_following, hu, hw, hfs], hcount, fun hone => ?_⟩
    have hzero : fs.count (a.id, bid) = 0 := by omega
    have hnot : (a.id, bid) ∉ fs := by
      simpa using List.count_eq_zero.mp hzero
    have hnone : removeFirstEdge (a.id, bid) fs = none :=
      (removeFirstEdge_eq_none_iff _ _).mpr hnot
    have hu' : gUser { s with follows := fs } sess = some a := by
      cases sess with
      | none => simp [gUser] at hu
      | some uid => exact hu
    have hw' : ({ s with follows := fs } : DB).users.find?
        (fun x => x.id == bid) = some w := hw
    simp [stop_following, hu', hw', hnone]

/-- Witness for C3 (amended): alice unfollows bob on the sample database —
the single `(1, 2)` edge disappears — and an immediate second unfollow hits
the `ValueError` branch. -/
theorem stop_following_spec_witness :
    stop_following exDB (some 1) 2 = (Result.ok, { exDB with follows := [] }) ∧
    stop_following { exDB with follows := [] } (some 1) 2 =
      (Result.pythonError, { exDB with follows := [] }) := by
  have h := (stop_following_spec exDB (some 1) exUser1 2 (by decide) (by decide)).2
    [] (by decide)
  exact ⟨h.1, h.2.2 (by decide)⟩

/-- C5: for every logged-in user `u`, the home feed contains only messages
stored in the database whose author is `u` or a user `u` follows, it is
ordered newest first (non-increasing timestamps), it holds at most 100
messages, and whenever at most 100 messages qualify it contains exactly the
qualifying messages. -/
theorem homepage_feed_spec (s : DB) (sess : Option Nat) (u : UserRec)
    (feed : List Msg)
    (hu : gUser s sess = some u)
    (hf : homepage s sess = some feed) :
    (∀ m ∈ feed, m ∈ s.messages ∧ (m.user_id = u.id ∨ (u.id, m.user_id) ∈ s.follows)) ∧
    feed.Pairwise (fun a b => b.timestamp ≤ a.timestamp) ∧
    feed.length ≤ 100 ∧
    ((s.messages.filter
        (fun m => decide (m.user_id = u.id ∨ (u.id, m.user_id) ∈ s.follows))).length ≤ 100 →
      ∀ m : Msg, m ∈ feed ↔
        m ∈ s.messages ∧ (m.user_id = u.id ∨ (u.id, m.user_id) ∈ s.follows)) := by
  have hmemids : ∀ v : Nat,
      (v ∈ (s.follows.filter (fun e => e.1 == u.id)).map (fun e => e.2) ++ [u.id]) ↔
        (v = u.id ∨ (u.id, v) ∈ s.follows) := by
    intro v
    simp only [List.mem_append, List.mem_map, List.mem_filter,
      List.mem_singleton, beq_iff_eq]
    constructor
    · rintro (⟨e, ⟨he, h1⟩, rfl⟩ | rfl)
      · right
        have he2 : e = (u.id, e.2) := Prod.ext h1 rfl
        rwa [← he2]
      · left; rfl
    · rintro (rfl | hmem)
      · right; rfl
      · left; exact ⟨(u.id, v), ⟨hmem, rfl⟩, rfl⟩
  simp only [homepage, hu, Option.some.injEq] at hf
  subst hf
  have hfeq : s.messages.filter
        (fun m => decide (m.user_id ∈
          (s.follows.filter (fun e => e.1 == u.id)).map (fun e => e.2) ++ [u.id])) =
      s.messages.filter
        (fun m => decide (m.user_id = u.id ∨ (u.id, m.user_id) ∈ s.follows)) :=
    List.filter_congr (fun m _ => decide_eq_decide.mpr (hmemids m.user_id))
  refine ⟨?_, ?_, List.length_take_le _ _, ?_⟩
  · intro m hm
    have h1 := List.take_subset _ _ hm
    rw [List.mem_insertionSort, hfeq, List.mem_filter] at h1
    exact ⟨h1.1, of_decide_eq_true h1.2⟩
  · have hsorted := List.sorted_insertionSort newerFirst
      (s.messages.filter
        (fun m => decide (m.user_id ∈
          (s.follows.filter (fun e => e.1 == u.id)).map (fun e => e.2) ++ [u.id])))
    have htake : (((s.messages.filter
        (fun m => decide (m.user_id ∈
          (s.follows.filter (fun e => e.1 == u.id)).map (fun e => e.2) ++
            [u.id]))).insertionSort newerFirst).take 100).Pairwise newerFirst :=
      List.Pairwise.sublist (List.take_sublist 100 _) hsorted
    exact htake.imp (fun hab => hab)
  · intro hlen m
    have hlen2 : ((s.messages.filter
        (fun m => decide (m.user_id ∈
          (s.follows.filter (fun e => e.1 == u.id)).map (fun e => e.2) ++
            [u.id]))).insertionSort newerFirst).length ≤ 100 := by
      rw [List.length_insertionSort, hfeq]
      exact hlen
    rw [List.take_of_length_le hlen2, List.mem_insertionSort, hfeq, List.mem_filter]
    simp [decide_eq_true_eq]

/-- Witness for C5: on the sample database, alice's home feed is exactly
bob's newer message followed by her own — the unfollowed user's message is
excluded — and it is newest first and within the cap. -/
theorem homepage_feed_spec_witness :
    ([exMsg2, exMsg1] : List Msg).length ≤ 100 ∧
    (exMsg1 ∈ exDB.messages ∧ (exMsg1.user_id = 1 ∨ (1, exMsg1.user_id) ∈ exDB.follows)) := by
  have h := homepage_feed_spec exDB (some 1) exUser1 [exMsg2, exMsg1]
    (by decide) (by decide)
  exact ⟨h.2.2.1, h.1 exMsg1 (by decide)⟩

end Warbler
